import Mathlib

/-!
Verification development for the `auth-irma` authentication bridge.

Shallow embedding conventions:
* Rust `String` values are modelled as their UTF-8 byte sequences, `List Nat`
  with every byte below 256.  The static error messages carried by error
  variants are kept as Lean `String` literals, since they never cross the
  URL codec.
* `HashMap` is modelled as an insertion-ordered association list where
  `insert` replaces an existing binding in place (Rust `HashMap::insert`
  semantics); iteration-order facts are never relied upon.
* Network calls (`get_result`, the session start, the out-of-band POST) are
  abstracted to their observable outcome: the handler functions take the raw
  result the server answered with, and capability functions for signing,
  encryption and the delivery POST, exactly as the Rust handlers consume
  `dyn JwsSigner` / `dyn JweEncrypter` trait objects.
-/

namespace AuthIrma

/-- A Rust string, modelled as its UTF-8 byte sequence. -/
abbrev Str := List Nat

/-! ## `src/irma.rs` — session data model and result classification -/

/-- `SessionStatus` from `src/irma.rs`. -/
inductive SessionStatus where
  | Initialized
  | Connected
  | Cancelled
  | Done
  | Timeout
deriving DecidableEq, Repr

/-- `ProofStatus` from `src/irma.rs`. -/
inductive ProofStatus where
  | Valid
  | Invalid
  | InvalidTimestamp
  | UnmatchedRequest
  | MissingAttributes
  | Expired
deriving DecidableEq, Repr

/-- `irma::Error` from `src/irma.rs`.  The `Reqwest` and `Json` variants carry
opaque external library errors; their payloads are dropped in the model. -/
inductive IrmaError where
  | Reqwest
  | Json
  | Incomplete
  | Cancelled
  | Timeout
  | Invalid
deriving DecidableEq, Repr

/-- `AttributeResult` from `src/irma.rs` (`id` plus mandatory `rawvalue`). -/
structure AttributeResult where
  id : Str
  rawvalue : Str
deriving DecidableEq, Repr

/-- `DisclosedAttribute` as consumed by `Config::map_response` in
`src/config.rs` (field accesses `identifier` and optional `raw_value`). -/
structure DisclosedAttribute where
  identifier : Str
  raw_value : Option Str
deriving DecidableEq, Repr

/-- `RawIrmaResult` from `src/irma.rs`.  The repository contains two variants
of the disclosed-attribute record (`AttributeResult` in `src/irma.rs`,
`identifier`/`raw_value` in `src/config.rs`), so the carrier of the disclosed
groups is a type parameter; the classification logic never inspects it. -/
structure RawIrmaResult (α : Type) where
  status : SessionStatus
  proof_status : ProofStatus
  disclosed : List (List α)
deriving DecidableEq, Repr

/-- `IrmaResult` from `src/irma.rs`: the successfully classified result. -/
structure IrmaResult (α : Type) where
  disclosed : List (List α)
deriving DecidableEq, Repr

/-- `TryFrom<RawIrmaResult> for IrmaResult` (`src/irma.rs` lines 144-160):
the session-result classification state machine. -/
def tryFromRaw {α : Type} (value : RawIrmaResult α) : Except IrmaError (IrmaResult α) :=
  match value.status with
  | SessionStatus.Cancelled => Except.error IrmaError.Cancelled
  | SessionStatus.Timeout => Except.error IrmaError.Timeout
  | SessionStatus.Done =>
    match value.proof_status with
    | ProofStatus.Valid => Except.ok { disclosed := value.disclosed }
    | _ => Except.error IrmaError.Invalid
  | _ => Except.error IrmaError.Incomplete

/-! ## `src/config.rs` — attribute mapping and response cross-check -/

/-- `AttributeMapping = HashMap<String, Vec<String>>` from `src/config.rs`,
modelled as an association list with distinct keys. -/
abbrev AttributeMapping := List (Str × List Str)

/-- `self.attributes.get(attribute)`: association-list lookup. -/
def lookupAttr (cfg : AttributeMapping) (a : Str) : Option (List Str) :=
  match cfg with
  | [] => none
  | (k, v) :: rest => if k = a then some v else lookupAttr rest a

/-- `config::Error` from `src/config.rs`.  `Yaml`, `Json` and `Jwt` carry
opaque external errors, dropped in the model. -/
inductive ConfigError where
  | Irma (e : IrmaError)
  | UnknownAttribute (a : Str)
  | NotMatching (desc : String)
  | InvalidResponse (desc : String)
  | Yaml
  | Json
  | Jwt
deriving DecidableEq, Repr

/-- `irma::AttributeRequest` as used by `Config::map_attributes`. -/
inductive AttributeRequest where
  | Simple (s : Str)
deriving DecidableEq, Repr

/-- `irma::ConDisCon`: conjunction of disjunctions of conjunctions. -/
abbrev ConDisCon := List (List (List AttributeRequest))

/-- `Config::map_attributes` (`src/config.rs` lines 134-150): translate the
ordered list of logical attribute names into the disclosure request
structure, failing on the first unmapped name. -/
def map_attributes (cfg : AttributeMapping) (attributes : List Str) :
    Except ConfigError ConDisCon :=
  match attributes with
  | [] => Except.ok []
  | attrName :: rest =>
    match lookupAttr cfg attrName with
    | none => Except.error (ConfigError.UnknownAttribute attrName)
    | some ids =>
      match map_attributes cfg rest with
      | Except.error e => Except.error e
      | Except.ok result =>
        Except.ok ((ids.map fun request_attribute => [AttributeRequest.Simple request_attribute]) :: result)

/-- `irma::SessionResult` as consumed by `Config::map_response` (only the
`disclosed` field is read). -/
structure SessionResult where
  disclosed : List (List DisclosedAttribute)
deriving DecidableEq, Repr

/-- `HashMap::insert`: replace an existing binding in place, else append. -/
def hmInsert (m : List (Str × Str)) (k v : Str) : List (Str × Str) :=
  if m.any fun p => p.1 = k then
    m.map fun p => if p.1 = k then (k, v) else p
  else
    m ++ [(k, v)]

/-- The body of the `for (i, attribute) in attributes.iter().enumerate()` loop
of `Config::map_response`, walking the request names and the parallel
disclosed groups together.  The final catch-all arm is unreachable because
the caller has already checked that both lists have the same length. -/
def map_response_loop (cfg : AttributeMapping) :
    List Str → List (List DisclosedAttribute) → List (Str × Str) →
    Except ConfigError (List (Str × Str))
  | [], _, acc => Except.ok acc
  | attrName :: rest, group :: groups, acc =>
    if h : group.length = 1 then
      match lookupAttr cfg attrName with
      | none => Except.error (ConfigError.UnknownAttribute attrName)
      | some allowed_irma_attributes =>
        let d := group.head (by intro hnil; rw [hnil] at h; simp at h)
        if allowed_irma_attributes.contains d.identifier then
          map_response_loop cfg rest groups (hmInsert acc attrName (d.raw_value.getD []))
        else
          Except.error (ConfigError.InvalidResponse "Incorrect attribute in inner conjunction")
    else
      Except.error (ConfigError.InvalidResponse "Incorrect number of attributes in inner conjunction")
  | _ :: _, [], _ =>
    Except.error (ConfigError.NotMatching "mismatch between request and response")

/-- `Config::map_response` (`src/config.rs` lines 152-188): cross-check the
disclosed groups against the requested names and build the validated
name-to-value map. -/
def map_response (cfg : AttributeMapping) (attributes : List Str)
    (response : SessionResult) : Except ConfigError (List (Str × Str)) :=
  if attributes.length ≠ response.disclosed.length then
    Except.error (ConfigError.NotMatching "mismatch between request and response")
  else
    map_response_loop cfg attributes response.disclosed []

/-! ## URL-safe base64 (rust `base64` 0.13, `URL_SAFE` configuration)

`base64::encode_config(_, URL_SAFE)` / `base64::decode_config(_, URL_SAFE)`
as called in `src/main.rs`: URL-safe alphabet, padded, and (decoder default)
rejecting non-zero trailing bits. -/

/-- Sextet to ASCII code of the URL-safe base64 alphabet
`A-Z a-z 0-9 - _`. -/
def b64char (n : Nat) : Nat :=
  if n < 26 then 65 + n
  else if n < 52 then 97 + (n - 26)
  else if n < 62 then 48 + (n - 52)
  else if n = 62 then 45
  else 95

/-- ASCII code back to sextet; `none` outside the URL-safe alphabet. -/
def b64dchar (c : Nat) : Option Nat :=
  if 65 ≤ c ∧ c ≤ 90 then some (c - 65)
  else if 97 ≤ c ∧ c ≤ 122 then some (c - 97 + 26)
  else if 48 ≤ c ∧ c ≤ 57 then some (c - 48 + 52)
  else if c = 45 then some 62
  else if c = 95 then some 63
  else none

/-- Padded URL-safe base64 encoding of a byte sequence (`61` is `=`). -/
def b64encode : List Nat → List Nat
  | [] => []
  | [a] => [b64char (a / 4), b64char (a % 4 * 16), 61, 61]
  | [a, b] => [b64char (a / 4), b64char (a % 4 * 16 + b / 16), b64char (b % 16 * 4), 61]
  | a :: b :: c :: rest =>
    b64char (a / 4) :: b64char (a % 4 * 16 + b / 16) ::
      b64char (b % 16 * 4 + c / 64) :: b64char (c % 64) :: b64encode rest

/-- Padded URL-safe base64 decoding; strict about the alphabet, padding
placement and (as in the default `base64` 0.13 configuration) about trailing
bits of the final partial chunk being zero. -/
def b64decode : List Nat → Option (List Nat)
  | [] => some []
  | p :: q :: r :: s :: rest =>
    match b64dchar p, b64dchar q with
    | some a, some b =>
      if r = 61 then
        if s = 61 ∧ rest = [] ∧ b % 16 = 0 then some [a * 4 + b / 16] else none
      else
        match b64dchar r with
        | some c =>
          if s = 61 then
            if rest = [] ∧ c % 4 = 0 then some [a * 4 + b / 16, b % 16 * 16 + c / 4] else none
          else
            match b64dchar s, b64decode rest with
            | some d, some tail =>
              some ((a * 4 + b / 16) :: (b % 16 * 16 + c / 4) :: (c % 4 * 64 + d) :: tail)
            | _, _ => none
        | none => none
    | _, _ => none
  | _ => none

/-! ## JSON serialization of `Vec<String>` (`serde_json`)

`serde_json::to_vec::<Vec<String>>` and `serde_json::from_slice::<Vec<String>>`
as called in `src/main.rs`, modelled at the byte level. -/

/-- Lowercase hexadecimal digit, as emitted by `serde_json`. -/
def hexDigit (n : Nat) : Nat :=
  if n < 10 then 48 + n else 87 + n

/-- Hexadecimal digit back to its value (`0-9`, `a-f`, `A-F`). -/
def parseHex (c : Nat) : Option Nat :=
  if 48 ≤ c ∧ c ≤ 57 then some (c - 48)
  else if 97 ≤ c ∧ c ≤ 102 then some (c - 97 + 10)
  else if 65 ≤ c ∧ c ≤ 70 then some (c - 65 + 10)
  else none

/-- `serde_json`'s escaping of one byte inside a JSON string: `"` and `\`
are backslash-escaped, the short control escapes `\b \t \n \f \r` are used
where they exist, other control bytes become `\u00XX`, and everything else
is emitted verbatim. -/
def escapeByte (b : Nat) : List Nat :=
  if b = 34 then [92, 34]
  else if b = 92 then [92, 92]
  else if b = 8 then [92, 98]
  else if b = 9 then [92, 116]
  else if b = 10 then [92, 110]
  else if b = 12 then [92, 102]
  else if b = 13 then [92, 114]
  else if b < 32 then [92, 117, 48, 48, hexDigit (b / 16), hexDigit (b % 16)]
  else [b]

/-- The escaped body of a JSON string, including the closing quote. -/
def escBody : Str → List Nat
  | [] => [34]
  | b :: t => escapeByte b ++ escBody t

/-- A serialized JSON string: opening quote, escaped body, closing quote. -/
def serializeString (s : Str) : List Nat :=
  34 :: escBody s

/-- The comma-separated tail of a serialized JSON array of strings. -/
def serializeTail : List Str → List Nat
  | [] => [93]
  | s :: t => 44 :: serializeString s ++ serializeTail t

/-- `serde_json::to_vec` of a `Vec<String>`: `["a","b",...]` without
whitespace. -/
def serializeStrList : List Str → List Nat
  | [] => [91, 93]
  | s :: t => 91 :: serializeString s ++ serializeTail t

/-- UTF-8 encoding of a Unicode code point. -/
def utf8Encode (n : Nat) : List Nat :=
  if n < 128 then [n]
  else if n < 2048 then [192 + n / 64, 128 + n % 64]
  else if n < 65536 then [224 + n / 4096, 128 + n / 64 % 64, 128 + n % 64]
  else [240 + n / 262144, 128 + n / 4096 % 64, 128 + n / 64 % 64, 128 + n % 64]

/-- The single-character JSON escapes: the byte following a backslash and
the byte it denotes (`\" \\ \/ \b \t \n \f \r`). -/
def escChar (c : Nat) : Option Nat :=
  if c = 34 then some 34
  else if c = 92 then some 92
  else if c = 47 then some 47
  else if c = 98 then some 8
  else if c = 116 then some 9
  else if c = 110 then some 10
  else if c = 102 then some 12
  else if c = 114 then some 13
  else none

/-- Decode one JSON escape sequence.  The input starts right after the
backslash; the result is the unescaped bytes together with the number of
input bytes consumed.  `\uXXXX` escapes follow `serde_json`: the code
point is UTF-8 encoded, surrogate pairs are combined, lone surrogates are
rejected. -/
def parseEscape : List Nat → Option (Str × Nat)
  | [] => none
  | c :: r =>
    if c = 117 then
      match r with
      | h1 :: h2 :: h3 :: h4 :: r1 =>
        match parseHex h1, parseHex h2, parseHex h3, parseHex h4 with
        | some x1, some x2, some x3, some x4 =>
          let n := x1 * 4096 + x2 * 256 + x3 * 16 + x4
          if n < 55296 ∨ 57343 < n then some (utf8Encode n, 5)
          else if n ≤ 56319 then
            match r1 with
            | 92 :: 117 :: g1 :: g2 :: g3 :: g4 :: _ =>
              match parseHex g1, parseHex g2, parseHex g3, parseHex g4 with
              | some y1, some y2, some y3, some y4 =>
                let m := y1 * 4096 + y2 * 256 + y3 * 16 + y4
                if 56320 ≤ m ∧ m ≤ 57343 then
                  some (utf8Encode (65536 + (n - 55296) * 1024 + (m - 56320)), 11)
                else none
              | _, _, _, _ => none
            | _ => none
          else none
        | _, _, _, _ => none
      | _ => none
    else
      match escChar c with
      | some u => some ([u], 1)
      | none => none

/-- Parse the body of a JSON string after the opening quote, returning the
unescaped bytes and the input remaining after the closing quote.  Raw
control bytes are rejected.  The `fuel` argument only bounds the recursion
depth; every step consumes at least one input byte, so `input.length + 1`
is always enough. -/
def parseStringBody : Nat → List Nat → Option (Str × List Nat)
  | 0, _ => none
  | _ + 1, [] => none
  | fuel + 1, b :: r =>
    if b = 34 then some ([], r)
    else if b = 92 then
      match parseEscape r with
      | none => none
      | some (e, k) => (parseStringBody fuel (r.drop k)).map fun p => (e ++ p.1, p.2)
    else if b < 32 then none
    else (parseStringBody fuel r).map fun p => (b :: p.1, p.2)

/-- Skip JSON insignificant whitespace (space, tab, newline, carriage
return). -/
def skipWs : List Nat → List Nat
  | [] => []
  | c :: r => if c = 32 ∨ c = 9 ∨ c = 10 ∨ c = 13 then skipWs r else c :: r

/-- Parse the comma-separated elements of a non-empty JSON string array,
starting at the first element and consuming the closing bracket.  The
`fuel` argument only bounds the recursion depth; since every element
consumes at least one byte, `input.length + 1` is always enough. -/
def parseElems : Nat → List Nat → Option (List Str × List Nat)
  | 0, _ => none
  | fuel + 1, l =>
    match l with
    | 34 :: r =>
      match parseStringBody (r.length + 1) r with
      | none => none
      | some (s, r1) =>
        match skipWs r1 with
        | 44 :: r2 =>
          match parseElems fuel (skipWs r2) with
          | some (elems, rest) => some (s :: elems, rest)
          | none => none
        | 93 :: r2 => some ([s], r2)
        | _ => none
    | _ => none

/-- `serde_json::from_slice::<Vec<String>>`: parse a JSON array of strings
and require that nothing but whitespace follows it. -/
def parseArray (input : List Nat) : Option (List Str) :=
  match skipWs input with
  | 91 :: r =>
    match skipWs r with
    | 93 :: r2 => if skipWs r2 = [] then some [] else none
    | r1 =>
      match parseElems (r1.length + 1) r1 with
      | some (elems, rest) => if skipWs rest = [] then some elems else none
      | none => none
  | _ => none

/-! ## UTF-8 validation (`std::str::from_utf8`) -/

/-- A UTF-8 continuation byte, `0x80`-`0xBF`. -/
def isCont (c : Nat) : Bool :=
  decide (127 < c ∧ c < 192)

/-- UTF-8 validity of a byte sequence, as checked by
`std::str::from_utf8`. -/
def validUtf8 : List Nat → Bool
  | [] => true
  | b :: r =>
    if b < 128 then validUtf8 r
    else if 194 ≤ b ∧ b ≤ 223 then
      match r with
      | c :: r1 => isCont c && validUtf8 r1
      | _ => false
    else if b = 224 then
      match r with
      | c :: d :: r1 => decide (160 ≤ c ∧ c ≤ 191) && isCont d && validUtf8 r1
      | _ => false
    else if 225 ≤ b ∧ b ≤ 236 then
      match r with
      | c :: d :: r1 => isCont c && isCont d && validUtf8 r1
      | _ => false
    else if b = 237 then
      match r with
      | c :: d :: r1 => decide (128 ≤ c ∧ c ≤ 159) && isCont d && validUtf8 r1
      | _ => false
    else if 238 ≤ b ∧ b ≤ 239 then
      match r with
      | c :: d :: r1 => isCont c && isCont d && validUtf8 r1
      | _ => false
    else if b = 240 then
      match r with
      | c :: d :: e :: r1 => decide (144 ≤ c ∧ c ≤ 191) && isCont d && isCont e && validUtf8 r1
      | _ => false
    else if 241 ≤ b ∧ b ≤ 243 then
      match r with
      | c :: d :: e :: r1 => isCont c && isCont d && isCont e && validUtf8 r1
      | _ => false
    else if b = 244 then
      match r with
      | c :: d :: e :: r1 => decide (128 ≤ c ∧ c ≤ 143) && isCont d && isCont e && validUtf8 r1
      | _ => false
    else false

/-- `std::str::from_utf8` on the bytes of a would-be string: succeeds, with
the bytes unchanged, exactly when they are valid UTF-8. -/
def fromUtf8 (l : List Nat) : Option Str :=
  if validUtf8 l then some l else none

/-! ## `src/jwe.rs` — the result packager

The `josekit` signer and encrypter are trait objects in the source; they are
modelled as function-valued capabilities.  A capability failure is an opaque
`josekit::JoseError`, modelled as a `String` tag. -/

/-- The `JwsHeader` fields set by `sign_and_encrypt_attributes`. -/
structure JwsHeaderM where
  token_type : Option String
deriving DecidableEq, Repr

/-- The `JweHeader` fields set by `sign_and_encrypt_attributes`. -/
structure JweHeaderM where
  token_type : Option String
  content_type : Option String
  content_encryption : Option String
deriving DecidableEq, Repr

/-- The `JwtPayload` built for the inner signed token: a subject claim and
an `attributes` claim. -/
structure SigPayload where
  subject : Option String
  attributes : Option (List (Str × Str))
deriving DecidableEq, Repr

/-- The `JwtPayload` built for the outer encrypted token: the single `njwt`
claim carrying the serialized signed token. -/
structure EncPayload where
  njwt : Option String
deriving DecidableEq, Repr

/-- `jwe::Error` from `src/jwe.rs`; the `JWT` variant carries the opaque
`josekit` error. -/
inductive JweModuleError where
  | Json
  | JWT (e : String)
deriving DecidableEq, Repr

/-- `sign_and_encrypt_attributes` (`src/jwe.rs` lines 45-70): build the
signed token over the attribute map, then the encrypted token whose payload
carries the serialized signed token. -/
def sign_and_encrypt_attributes (attributes : List (Str × Str))
    (signer : JwsHeaderM → SigPayload → Except String String)
    (encrypter : JweHeaderM → EncPayload → Except String String) :
    Except JweModuleError String :=
  let sig_header : JwsHeaderM := { token_type := some "JWT" }
  let sig_payload : SigPayload :=
    { subject := some "id-contact-attributes", attributes := some attributes }
  match signer sig_header sig_payload with
  | Except.error e => Except.error (JweModuleError.JWT e)
  | Except.ok jws =>
    let enc_header : JweHeaderM :=
      { token_type := some "JWT", content_type := some "JWT",
        content_encryption := some "A128CBC-HS256" }
    let enc_payload : EncPayload := { njwt := some jws }
    match encrypter enc_header enc_payload with
    | Except.error e => Except.error (JweModuleError.JWT e)
    | Except.ok token => Except.ok token

/-! ## `src/main.rs` — the bridge orchestrator

`id_contact_proto`'s `AuthResult`/`AuthStatus` and
`id_contact_jwt::sign_and_encrypt_auth_result` are external crates; they are
modelled from their use sites, the sealer as a function-valued capability.
The network fetch inside `get_result` is abstracted to the raw result the
disclosure server answered with; `get_result` itself is the classification
`tryFromRaw` of that raw result (`src/irma.rs` lines 238-248). -/

/-- `main::Error` from `src/main.rs`; external error payloads dropped. -/
inductive MainError where
  | Irma (e : IrmaError)
  | Config (e : ConfigError)
  | Decode
  | Json
  | Utf
  | Jwt
  | Template
deriving DecidableEq, Repr

/-- `id_contact_proto::AuthStatus` (the source only constructs `Succes`). -/
inductive AuthStatus where
  | Succes
  | Failed
deriving DecidableEq, Repr

/-- `id_contact_proto::AuthResult` as constructed in `src/main.rs`. -/
structure AuthResult where
  status : AuthStatus
  attributes : Option (List (Str × Str))
  session_url : Option Str
deriving DecidableEq, Repr

/-- The attributes path segment built by `start_ib`/`start_oob`
(`src/main.rs` lines 242 and 269): URL-safe base64 of the JSON
serialization of the attribute-name list. -/
def encodeAttributesSegment (attributes : List Str) : List Nat :=
  b64encode (serializeStrList attributes)

/-- The continuation path segment built by `start_ib`/`start_oob`
(`src/main.rs` lines 243, 256 and 270): URL-safe base64 of the raw URL
string. -/
def encodeUrlSegment (url : Str) : List Nat :=
  b64encode url

/-- The attribute-segment decoding performed by `decorated_continue` and
`session_complete` (`src/main.rs` lines 157-158 and 198-199): base64
decode, then JSON parse. -/
def decodeAttributesSegment (seg : List Nat) : Option (List Str) :=
  match b64decode seg with
  | some bytes => parseArray bytes
  | none => none

/-- The URL-segment decoding performed by `decorated_continue` and
`session_complete` (`src/main.rs` lines 154-155 and 195-196): base64
decode, then UTF-8 decode. -/
def decodeUrlSegment (seg : List Nat) : Option Str :=
  match b64decode seg with
  | some bytes => fromUtf8 bytes
  | none => none

/-- `"&result="` as bytes. -/
def ampResultEq : List Nat := [38, 114, 101, 115, 117, 108, 116, 61]

/-- `"?result="` as bytes. -/
def qmResultEq : List Nat := [63, 114, 101, 115, 117, 108, 116, 61]

/-- `decorated_continue` (`src/main.rs` lines 147-182): decode the two path
segments, fetch and classify the session result, cross-check it, seal the
outcome and redirect to the continuation with the sealed result attached.
`raw` is the raw result the disclosure server answered to
`GET .../session/{token}/result`; `se` is the
`sign_and_encrypt_auth_result` capability. -/
def decorated_continue (cfg : AttributeMapping) (token : Str)
    (attributesSeg continuationSeg : List Nat)
    (raw : RawIrmaResult DisclosedAttribute)
    (se : AuthResult → Except Unit Str) : Except MainError Str :=
  match b64decode continuationSeg with
  | none => Except.error MainError.Decode
  | some contBytes =>
    match fromUtf8 contBytes with
    | none => Except.error MainError.Utf
    | some continuation =>
      match b64decode attributesSeg with
      | none => Except.error MainError.Decode
      | some attrBytes =>
        match parseArray attrBytes with
        | none => Except.error MainError.Json
        | some attributes =>
          match tryFromRaw raw with
          | Except.error e => Except.error (MainError.Irma e)
          | Except.ok session_result =>
            match map_response cfg attributes { disclosed := session_result.disclosed } with
            | Except.error e => Except.error (MainError.Config e)
            | Except.ok attrs =>
              match se { status := AuthStatus.Succes, attributes := some attrs,
                         session_url := none } with
              | Except.error _ => Except.error MainError.Jwt
              | Except.ok auth_result =>
                if continuation.contains 63 then
                  Except.ok (continuation ++ ampResultEq ++ auth_result)
                else
                  Except.ok (continuation ++ qmResultEq ++ auth_result)

/-- `session_complete` (`src/main.rs` lines 188-223): the out-of-band
completion callback.  Decodes the segments, fetches, classifies,
cross-checks and seals exactly like `decorated_continue`, then POSTs the
sealed result to the caller-supplied `attr_url`; a POST failure is only
logged.  `post` is the delivery capability (`reqwest` POST), whose
error is opaque. -/
def session_complete (cfg : AttributeMapping) (token : Str)
    (attributesSeg attrUrlSeg : List Nat)
    (raw : RawIrmaResult DisclosedAttribute)
    (se : AuthResult → Except Unit Str)
    (post : Str → Str → Except Unit Unit) : Except MainError Unit :=
  match b64decode attrUrlSeg with
  | none => Except.error MainError.Decode
  | some urlBytes =>
    match fromUtf8 urlBytes with
    | none => Except.error MainError.Utf
    | some attr_url =>
      match b64decode attributesSeg with
      | none => Except.error MainError.Decode
      | some attrBytes =>
        match parseArray attrBytes with
        | none => Except.error MainError.Json
        | some attributes =>
          match tryFromRaw raw with
          | Except.error e => Except.error (MainError.Irma e)
          | Except.ok session_result =>
            match map_response cfg attributes { disclosed := session_result.disclosed } with
            | Except.error e => Except.error (MainError.Config e)
            | Except.ok attrs =>
              match se { status := AuthStatus.Succes, attributes := some attrs,
                         session_url := none } with
              | Except.error _ => Except.error MainError.Jwt
              | Except.ok auth_result =>
                match post attr_url auth_result with
                | Except.error _ => Except.ok ()
                | Except.ok _ => Except.ok ()

/-- The value `Config::map_response` extracts from one disclosed group that
passed its checks: the raw value of the single disclosed attribute, with a
missing raw value defaulting to the empty string. -/
def groupValue (g : List DisclosedAttribute) : Str :=
  match g with
  | [d] => d.raw_value.getD []
  | _ => []

/-! # Theorems -/

/-- **C1**: the validator classifies every raw session result into exactly
one outcome as a total function of (session status, proof status):
`Cancelled` and `Timeout` yield their terminal outcomes regardless of proof
status; `Done` with `Valid` succeeds and passes the disclosed groups on;
`Done` with any other proof status is an invalid proof; `Initialized` and
`Connected` are incomplete. -/
theorem claim_C1_validator_classification {α : Type} (r : RawIrmaResult α) :
    (r.status = SessionStatus.Cancelled →
      tryFromRaw r = Except.error IrmaError.Cancelled) ∧
    (r.status = SessionStatus.Timeout →
      tryFromRaw r = Except.error IrmaError.Timeout) ∧
    (r.status = SessionStatus.Done → r.proof_status = ProofStatus.Valid →
      tryFromRaw r = Except.ok { disclosed := r.disclosed }) ∧
    (r.status = SessionStatus.Done → r.proof_status ≠ ProofStatus.Valid →
      tryFromRaw r = Except.error IrmaError.Invalid) ∧
    (r.status = SessionStatus.Initialized ∨ r.status = SessionStatus.Connected →
      tryFromRaw r = Except.error IrmaError.Incomplete) := by
  obtain ⟨st, ps, d⟩ := r
  cases st <;> cases ps <;> simp [tryFromRaw]

/-- Witness for C1: a cancelled session is classified `Cancelled`, and a
`Done`/`Valid` session succeeds with its disclosed groups. -/
theorem claim_C1_witness :
    tryFromRaw { status := SessionStatus.Cancelled, proof_status := ProofStatus.Valid,
                 disclosed := ([] : List (List AttributeResult)) } =
      Except.error IrmaError.Cancelled ∧
    tryFromRaw { status := SessionStatus.Done, proof_status := ProofStatus.Valid,
                 disclosed := [[({ id := [105], rawvalue := [118] } : AttributeResult)]] } =
      Except.ok { disclosed := [[({ id := [105], rawvalue := [118] } : AttributeResult)]] } :=
  ⟨(claim_C1_validator_classification _).1 rfl,
   (claim_C1_validator_classification _).2.2.1 rfl rfl⟩

/-- **C4**: if any requested logical name is absent from the configuration,
`map_attributes` fails with `UnknownAttribute` naming the first unmapped
name in input order, and no partial structure is produced. -/
theorem claim_C4_unknown_attribute (cfg : AttributeMapping) (attributes : List Str)
    (h : ∃ a ∈ attributes, lookupAttr cfg a = none) :
    ∃ a, attributes.find? (fun x => (lookupAttr cfg x).isNone) = some a ∧
      map_attributes cfg attributes = Except.error (ConfigError.UnknownAttribute a) := by
  induction attributes with
  | nil => simp at h
  | cons x rest ih =>
    by_cases hx : lookupAttr cfg x = none
    · exact ⟨x, by simp [List.find?, hx], by simp [map_attributes, hx]⟩
    · obtain ⟨ids, hids⟩ := Option.ne_none_iff_exists'.mp hx
      obtain ⟨a, ha, hnone⟩ := h
      rcases List.mem_cons.mp ha with rfl | hmem
      · exact absurd hnone hx
      · obtain ⟨a', hfind, hmap⟩ := ih ⟨a, hmem, hnone⟩
        refine ⟨a', ?_, ?_⟩
        · simp [List.find?, hids, hfind]
        · simp [map_attributes, hids, hmap]

/-- Witness for C4: requesting the unconfigured name `[121]` fails with
`UnknownAttribute [121]`. -/
theorem claim_C4_witness :
    (∃ a ∈ [[120], [121]], lookupAttr [([120], [[105]])] a = none) ∧
    ∃ a, ([[120], [121]] : List Str).find?
          (fun x => (lookupAttr [([120], [[105]])] x).isNone) = some a ∧
      map_attributes [([120], [[105]])] [[120], [121]] =
        Except.error (ConfigError.UnknownAttribute a) :=
  ⟨⟨[121], by decide, by decide⟩,
   claim_C4_unknown_attribute _ _ ⟨[121], by decide, by decide⟩⟩

/-- When every requested name is configured, `map_attributes` returns one
disjunction per input name in input order, each listing one
single-attribute conjunction per configured identifier in configured
order. -/
theorem map_attributes_spec (cfg : AttributeMapping) (attributes : List Str)
    (h : ∀ a ∈ attributes, (lookupAttr cfg a).isSome) :
    map_attributes cfg attributes =
      Except.ok (attributes.map fun a =>
        ((lookupAttr cfg a).getD []).map fun id => [AttributeRequest.Simple id]) := by
  induction attributes with
  | nil => simp [map_attributes]
  | cons x rest ih =>
    obtain ⟨ids, hx⟩ := Option.isSome_iff_exists.mp (h x (List.mem_cons_self x rest))
    have ihr := ih fun a ha => h a (List.mem_cons_of_mem x ha)
    simp [map_attributes, hx, ihr]

/-- **C5**: when every requested name is configured, `map_attributes`
returns one disjunction per input name in input order, where the
disjunction for a name consists of one single-attribute conjunction per
configured identifier of that name, in configured order. -/
theorem claim_C5_request_structure (cfg : AttributeMapping) (attributes : List Str)
    (h : ∀ a ∈ attributes, (lookupAttr cfg a).isSome) :
    map_attributes cfg attributes =
      Except.ok (attributes.map fun a =>
        ((lookupAttr cfg a).getD []).map fun id => [AttributeRequest.Simple id]) :=
  map_attributes_spec cfg attributes h

/-- Witness for C5: two configured identifiers for `[120]` become one
disjunction with two single-attribute conjunctions, in configured order. -/
theorem claim_C5_witness :
    (∀ a ∈ [[120]], (lookupAttr [([120], [[105], [106]])] a).isSome) ∧
    map_attributes [([120], [[105], [106]])] [[120]] =
      Except.ok [[[AttributeRequest.Simple [105]], [AttributeRequest.Simple [106]]]] := by
  refine ⟨by decide, ?_⟩
  have h := claim_C5_request_structure [([120], [[105], [106]])] [[120]] (by decide)
  simpa [lookupAttr] using h

/-- Inserting a key not present in the map appends the binding. -/
theorem hmInsert_fresh (m : List (Str × Str)) (k v : Str)
    (h : m.any (fun q => q.1 = k) = false) : hmInsert m k v = m ++ [(k, v)] := by
  simp [hmInsert, h]

/-- Folding fresh inserts over an accumulator appends the bindings. -/
theorem foldl_hmInsert_append :
    ∀ (l : List (Str × Str)) (acc : List (Str × Str)),
    (l.map Prod.fst).Nodup →
    (∀ k ∈ l.map Prod.fst, acc.any (fun q => q.1 = k) = false) →
    l.foldl (fun m q => hmInsert m q.1 q.2) acc = acc ++ l := by
  intro l
  induction l with
  | nil => intro acc _ _; simp
  | cons p t ih =>
    intro acc hnodup hfresh
    rw [List.map_cons] at hnodup
    obtain ⟨hp, ht⟩ := List.nodup_cons.mp hnodup
    have hins : hmInsert acc p.1 p.2 = acc ++ [p] := by
      rw [hmInsert_fresh acc p.1 p.2 (hfresh p.1 (by simp))]
    have hfresh' : ∀ k ∈ t.map Prod.fst, (acc ++ [p]).any (fun q => q.1 = k) = false := by
      intro k hk
      have h1 := hfresh k (by simp [hk])
      have h2 : p.1 ≠ k := fun he => hp (he ▸ hk)
      simp [List.any_append, h1, h2]
    calc (p :: t).foldl (fun m q => hmInsert m q.1 q.2) acc
        = t.foldl (fun m q => hmInsert m q.1 q.2) (acc ++ [p]) := by simp [hins]
      _ = (acc ++ [p]) ++ t := ih (acc ++ [p]) ht hfresh'
      _ = acc ++ p :: t := by simp

/-- When every position passes the cross-check, the response loop succeeds
and builds exactly the fold of the per-position inserts. -/
theorem map_response_loop_ok (cfg : AttributeMapping) :
    ∀ (A : List Str) (gs : List (List DisclosedAttribute)) (acc : List (Str × Str)),
    (∀ a ∈ A, (lookupAttr cfg a).isSome) →
    (∀ p ∈ A.zip gs, ∃ d, p.2 = [d] ∧ d.identifier ∈ (lookupAttr cfg p.1).getD []) →
    A.length = gs.length →
    map_response_loop cfg A gs acc =
      Except.ok ((A.zip gs).foldl (fun m p => hmInsert m p.1 (groupValue p.2)) acc) := by
  intro A
  induction A with
  | nil => intro gs acc _ _ _; simp [map_response_loop]
  | cons a A' ih =>
    intro gs acc hconf hpass hlen
    match gs with
    | [] => simp at hlen
    | g :: gs' =>
      obtain ⟨d, rfl, hdmem⟩ := hpass (a, g) (by simp)
      obtain ⟨allowed, hla⟩ := Option.isSome_iff_exists.mp (hconf a (by simp))
      have hmem : d.identifier ∈ allowed := by
        rw [hla] at hdmem
        simpa using hdmem
      have step : map_response_loop cfg (a :: A') ([d] :: gs') acc =
          map_response_loop cfg A' gs' (hmInsert acc a (d.raw_value.getD [])) := by
        simp [map_response_loop, hla, hmem]
      rw [step, ih gs' _ (fun x hx => hconf x (by simp [hx]))
        (fun p hp => hpass p (by simp [hp])) (by simpa using hlen)]
      simp [groupValue]

/-- When some position fails the cross-check (a non-singleton group or a
disallowed identifier), the response loop fails with an invalid-response
error. -/
theorem map_response_loop_invalid (cfg : AttributeMapping) :
    ∀ (A : List Str) (gs : List (List DisclosedAttribute)) (acc : List (Str × Str)),
    (∀ a ∈ A, (lookupAttr cfg a).isSome) →
    A.length = gs.length →
    ¬ (∀ p ∈ A.zip gs, ∃ d, p.2 = [d] ∧ d.identifier ∈ (lookupAttr cfg p.1).getD []) →
    ∃ desc, map_response_loop cfg A gs acc =
      Except.error (ConfigError.InvalidResponse desc) := by
  intro A
  induction A with
  | nil => intro gs acc _ _ hnpass; exact absurd (by simp) hnpass
  | cons a A' ih =>
    intro gs acc hconf hlen hnpass
    match gs with
    | [] => simp at hlen
    | g :: gs' =>
      obtain ⟨allowed, hla⟩ := Option.isSome_iff_exists.mp (hconf a (by simp))
      by_cases hg : g.length = 1
      · obtain ⟨d, rfl⟩ := List.length_eq_one.mp hg
        by_cases hdmem : d.identifier ∈ allowed
        · have step : map_response_loop cfg (a :: A') ([d] :: gs') acc =
              map_response_loop cfg A' gs' (hmInsert acc a (d.raw_value.getD [])) := by
            simp [map_response_loop, hla, hdmem]
          have hnpass' : ¬ (∀ p ∈ A'.zip gs', ∃ d', p.2 = [d'] ∧
              d'.identifier ∈ (lookupAttr cfg p.1).getD []) := by
            intro hall
            exact hnpass (by
              intro p hp
              rcases List.mem_cons.mp hp with rfl | hp'
              · exact ⟨d, rfl, by simp [hla, hdmem]⟩
              · exact hall p hp')
          rw [step]
          exact ih gs' _ (fun x hx => hconf x (by simp [hx])) (by simpa using hlen) hnpass'
        · exact ⟨"Incorrect attribute in inner conjunction",
            by simp [map_response_loop, hla, hdmem]⟩
      · exact ⟨"Incorrect number of attributes in inner conjunction",
          by simp [map_response_loop, hg]⟩

/-- **C2**: on the Done-plus-Valid path, the cross-check of a disclosed
result against the requested attribute list is: a group-count mismatch is a
mismatch error; otherwise a non-singleton group or a disclosed identifier
outside the configured identifier set of its position is an
invalid-response error; only when every position passes is a validated
name-to-value map returned. -/
theorem claim_C2_cross_check (cfg : AttributeMapping) (attributes : List Str)
    (response : SessionResult)
    (hconf : ∀ a ∈ attributes, (lookupAttr cfg a).isSome) :
    (attributes.length ≠ response.disclosed.length ∧
      map_response cfg attributes response =
        Except.error (ConfigError.NotMatching "mismatch between request and response")) ∨
    (attributes.length = response.disclosed.length ∧
      ¬ (∀ p ∈ attributes.zip response.disclosed,
          ∃ d, p.2 = [d] ∧ d.identifier ∈ (lookupAttr cfg p.1).getD []) ∧
      ∃ desc, map_response cfg attributes response =
        Except.error (ConfigError.InvalidResponse desc)) ∨
    (attributes.length = response.disclosed.length ∧
      (∀ p ∈ attributes.zip response.disclosed,
          ∃ d, p.2 = [d] ∧ d.identifier ∈ (lookupAttr cfg p.1).getD []) ∧
      ∃ m, map_response cfg attributes response = Except.ok m) := by
  by_cases hlen : attributes.length = response.disclosed.length
  · by_cases hpass : ∀ p ∈ attributes.zip response.disclosed,
        ∃ d, p.2 = [d] ∧ d.identifier ∈ (lookupAttr cfg p.1).getD []
    · refine Or.inr (Or.inr ⟨hlen, hpass, ?_⟩)
      obtain ⟨m, hm⟩ : ∃ m, map_response_loop cfg attributes response.disclosed [] =
          Except.ok m :=
        ⟨_, map_response_loop_ok cfg attributes response.disclosed [] hconf hpass hlen⟩
      exact ⟨m, by rw [map_response, if_neg (by omega)]; exact hm⟩
    · refine Or.inr (Or.inl ⟨hlen, hpass, ?_⟩)
      obtain ⟨desc, hdesc⟩ :=
        map_response_loop_invalid cfg attributes response.disclosed [] hconf hlen hpass
      refine ⟨desc, ?_⟩
      rw [map_response, if_neg (by omega)]
      exact hdesc
  · exact Or.inl ⟨hlen, by rw [map_response, if_pos hlen]⟩

/-- Witness for C2: a fully passing one-attribute response lands in the
success branch of the trichotomy. -/
theorem claim_C2_witness :
    (∀ a ∈ [[120]], (lookupAttr [([120], [[105]])] a).isSome) ∧
    ((([[120]] : List Str).length ≠
        ([[{ identifier := [105], raw_value := some [118] }]] : List (List DisclosedAttribute)).length ∧
      map_response [([120], [[105]])] [[120]]
          { disclosed := [[{ identifier := [105], raw_value := some [118] }]] } =
        Except.error (ConfigError.NotMatching "mismatch between request and response")) ∨
    (([[120]] : List Str).length =
        ([[{ identifier := [105], raw_value := some [118] }]] : List (List DisclosedAttribute)).length ∧
      ¬ (∀ p ∈ ([[120]] : List Str).zip
            ([[{ identifier := [105], raw_value := some [118] }]] : List (List DisclosedAttribute)),
          ∃ d, p.2 = [d] ∧ d.identifier ∈ (lookupAttr [([120], [[105]])] p.1).getD []) ∧
      ∃ desc, map_response [([120], [[105]])] [[120]]
          { disclosed := [[{ identifier := [105], raw_value := some [118] }]] } =
        Except.error (ConfigError.InvalidResponse desc)) ∨
    (([[120]] : List Str).length =
        ([[{ identifier := [105], raw_value := some [118] }]] : List (List DisclosedAttribute)).length ∧
      (∀ p ∈ ([[120]] : List Str).zip
            ([[{ identifier := [105], raw_value := some [118] }]] : List (List DisclosedAttribute)),
          ∃ d, p.2 = [d] ∧ d.identifier ∈ (lookupAttr [([120], [[105]])] p.1).getD []) ∧
      ∃ m, map_response [([120], [[105]])] [[120]]
          { disclosed := [[{ identifier := [105], raw_value := some [118] }]] } = Except.ok m)) :=
  ⟨by decide, claim_C2_cross_check [([120], [[105]])] [[120]]
    { disclosed := [[{ identifier := [105], raw_value := some [118] }]] } (by decide)⟩

/-- When every requested name is distinct and every position passes the
cross-check, `map_response` returns exactly one binding per position, in
request order. -/
theorem map_response_entries (cfg : AttributeMapping) (A : List Str)
    (gs : List (List DisclosedAttribute))
    (hconf : ∀ a ∈ A, (lookupAttr cfg a).isSome)
    (hpass : ∀ p ∈ A.zip gs, ∃ d, p.2 = [d] ∧ d.identifier ∈ (lookupAttr cfg p.1).getD [])
    (hlen : A.length = gs.length) (hnodup : A.Nodup) :
    map_response cfg A { disclosed := gs } =
      Except.ok ((A.zip gs).map fun p => (p.1, groupValue p.2)) := by
  have hok := map_response_loop_ok cfg A gs [] hconf hpass hlen
  have hfold : (A.zip gs).foldl (fun m p => hmInsert m p.1 (groupValue p.2))
      ([] : List (Str × Str)) =
      ((A.zip gs).map fun p => (p.1, groupValue p.2)).foldl
        (fun m q => hmInsert m q.1 q.2) [] := by
    rw [List.foldl_map]
  have hfst : (((A.zip gs).map fun p => (p.1, groupValue p.2)).map Prod.fst) = A := by
    rw [List.map_map]
    have h2 := List.map_fst_zip A gs (le_of_eq hlen)
    simpa [Function.comp] using h2
  have happ := foldl_hmInsert_append ((A.zip gs).map fun p => (p.1, groupValue p.2)) []
    (by rw [hfst]; exact hnodup) (by intro k _; simp)
  have hne : ¬(A.length ≠ ({ disclosed := gs } : SessionResult).disclosed.length) := by
    intro hc
    exact hc (by simpa using hlen)
  rw [map_response, if_neg hne]
  show map_response_loop cfg A gs [] = _
  rw [hok, hfold, happ]
  simp

/-- **C6** (amended): for a request whose names are configured and
*distinct*, mapping the attributes and cross-checking a synthetic result
that discloses, in order, one allowed identifier per name succeeds and
returns a map with exactly one entry per name — `|A|` entries — whose keys
are the names of `A`.  (With duplicate names the `HashMap` keeps a single
entry per distinct name, so the entry count is below `|A|`.) -/
theorem claim_C6_mapper_validator_roundtrip (cfg : AttributeMapping) (A : List Str)
    (gs : List DisclosedAttribute)
    (hconf : ∀ a ∈ A, (lookupAttr cfg a).isSome)
    (hlen : A.length = gs.length)
    (hmem : ∀ p ∈ A.zip gs, p.2.identifier ∈ (lookupAttr cfg p.1).getD [])
    (hnodup : A.Nodup) :
    (∃ cdc, map_attributes cfg A = Except.ok cdc) ∧
    (∃ m, map_response cfg A { disclosed := gs.map fun d => [d] } = Except.ok m ∧
      m.length = A.length ∧ ∀ k, (∃ v, (k, v) ∈ m) ↔ k ∈ A) := by
  have hzip : A.zip (gs.map fun d => [d]) = (A.zip gs).map fun p => (p.1, [p.2]) := by
    rw [List.zip_map_right]
    rfl
  have hpass : ∀ p ∈ A.zip (gs.map fun d => [d]),
      ∃ d, p.2 = [d] ∧ d.identifier ∈ (lookupAttr cfg p.1).getD [] := by
    intro p hp
    rw [hzip] at hp
    obtain ⟨q, hq, rfl⟩ := List.mem_map.mp hp
    exact ⟨q.2, rfl, hmem q hq⟩
  have hlen' : A.length = (gs.map fun d => [d]).length := by simpa using hlen
  have hentry := map_response_entries cfg A (gs.map fun d => [d]) hconf hpass hlen' hnodup
  refine ⟨?_, ?_⟩
  · exact ⟨_, map_attributes_spec cfg A hconf⟩
  · refine ⟨_, hentry, ?_, ?_⟩
    · rw [List.length_map, List.length_zip]
      omega
    · intro k
      have hfst : ((A.zip (gs.map fun d => [d])).map
          (fun p => (p.1, groupValue p.2))).map Prod.fst = A := by
        rw [List.map_map]
        have h2 := List.map_fst_zip A (gs.map fun d => [d]) (le_of_eq hlen')
        simpa [Function.comp] using h2
      constructor
      · rintro ⟨v, hv⟩
        have : k ∈ ((A.zip (gs.map fun d => [d])).map
            (fun p => (p.1, groupValue p.2))).map Prod.fst :=
          List.mem_map.mpr ⟨(k, v), hv, rfl⟩
        rwa [hfst] at this
      · intro hk
        rw [← hfst] at hk
        obtain ⟨x, hx, rfl⟩ := List.mem_map.mp hk
        exact ⟨x.2, by simpa using hx⟩

/-- Witness for C6: two distinct configured names with one allowed
identifier each map and cross-check back to a two-entry map. -/
theorem claim_C6_witness :
    (∃ cdc, map_attributes [([120], [[105]]), ([121], [[106]])] [[120], [121]] =
      Except.ok cdc) ∧
    (∃ m, map_response [([120], [[105]]), ([121], [[106]])] [[120], [121]]
        { disclosed := ([{ identifier := [105], raw_value := some [118] },
                         { identifier := [106], raw_value := some [119] }] :
            List DisclosedAttribute).map fun d => [d] } = Except.ok m ∧
      m.length = ([[120], [121]] : List Str).length ∧
      ∀ k, (∃ v, (k, v) ∈ m) ↔ k ∈ ([[120], [121]] : List Str)) :=
  claim_C6_mapper_validator_roundtrip [([120], [[105]]), ([121], [[106]])]
    [[120], [121]]
    [{ identifier := [105], raw_value := some [118] },
     { identifier := [106], raw_value := some [119] }]
    (by decide) (by decide) (by decide) (by decide)

/-- Counterexample for C6 as frozen: with the duplicate request
`[[120], [120]]` both mapping and cross-check succeed, but the returned
map has one entry, not `|A| = 2`, because the second insert replaces the
first. -/
theorem claim_C6_counterexample :
    map_attributes [([120], [[105]])] [[120], [120]] =
      Except.ok [[[AttributeRequest.Simple [105]]], [[AttributeRequest.Simple [105]]]] ∧
    map_response [([120], [[105]])] [[120], [120]]
        { disclosed := [[{ identifier := [105], raw_value := some [118] }],
                        [{ identifier := [105], raw_value := some [119] }]] } =
      Except.ok [([120], [119])] ∧
    ([([120], [119])] : List (Str × Str)).length ≠ ([[120], [120]] : List Str).length := by
  refine ⟨?_, ?_, by decide⟩ <;> rfl

/-- **C10**: when a disclosed attribute passes the identifier check but its
raw value is absent, the cross-check does not fail; the validated map
binds that logical name to the empty string. -/
theorem claim_C10_missing_raw_value (cfg : AttributeMapping) (A : List Str)
    (gs : List (List DisclosedAttribute))
    (hconf : ∀ a ∈ A, (lookupAttr cfg a).isSome)
    (hpass : ∀ p ∈ A.zip gs, ∃ d, p.2 = [d] ∧ d.identifier ∈ (lookupAttr cfg p.1).getD [])
    (hlen : A.length = gs.length) (hnodup : A.Nodup)
    (i : Nat) (hi : i < A.length)
    (hnone : ∃ d, gs.getD i [] = [d] ∧ d.raw_value = none) :
    ∃ m, map_response cfg A { disclosed := gs } = Except.ok m ∧
      (A.getD i [], ([] : Str)) ∈ m := by
  have hentry := map_response_entries cfg A gs hconf hpass hlen hnodup
  refine ⟨_, hentry, ?_⟩
  obtain ⟨d, hd, hdraw⟩ := hnone
  have higs : i < gs.length := by omega
  have hizip : i < (A.zip gs).length := by rw [List.length_zip]; omega
  have him : i < ((A.zip gs).map fun p => (p.1, groupValue p.2)).length := by
    simpa using hizip
  have hdg : gs[i] = [d] := by
    rw [← List.getD_eq_getElem gs [] higs]
    exact hd
  have hval : groupValue gs[i] = [] := by
    rw [hdg]
    simp [groupValue, hdraw]
  have hAi : A.getD i [] = A[i] := List.getD_eq_getElem A [] hi
  have hgel : ((A.zip gs).map fun p => (p.1, groupValue p.2))[i] =
      (A[i], groupValue gs[i]) := by
    simp [List.getElem_zip]
  have hmem := List.getElem_mem him
  rw [hgel, hval, ← hAi] at hmem
  exact hmem

/-- Witness for C10: a passing disclosure whose raw value is `None`
produces the binding `([120], "")`. -/
theorem claim_C10_witness :
    ∃ m, map_response [([120], [[105]])] [[120]]
        { disclosed := [[{ identifier := [105], raw_value := none }]] } = Except.ok m ∧
      (([120] : Str), ([] : Str)) ∈ m :=
  claim_C10_missing_raw_value [([120], [[105]])] [[120]]
    [[{ identifier := [105], raw_value := none }]]
    (by decide)
    (by
      intro p hp
      simp only [List.zip_cons_cons, List.zip_nil_right, List.mem_singleton] at hp
      subst hp
      exact ⟨{ identifier := [105], raw_value := none }, rfl, by decide⟩)
    (by decide) (by decide) 0 (by decide)
    ⟨{ identifier := [105], raw_value := none }, by decide, by decide⟩

/-- **C8**: the result packager signs first and encrypts second: the signed
token's payload carries the attribute map under the fixed subject
`id-contact-attributes`; the encrypted token's payload carries the entire
serialized signed token; the output is the single encrypted string; and
any signing or encryption failure is an error with no partial token. -/
theorem claim_C8_sign_then_encrypt (attributes : List (Str × Str))
    (signer : JwsHeaderM → SigPayload → Except String String)
    (encrypter : JweHeaderM → EncPayload → Except String String) :
    (∀ e, signer { token_type := some "JWT" }
        { subject := some "id-contact-attributes", attributes := some attributes } =
          Except.error e →
      sign_and_encrypt_attributes attributes signer encrypter =
        Except.error (JweModuleError.JWT e)) ∧
    (∀ jws e, signer { token_type := some "JWT" }
        { subject := some "id-contact-attributes", attributes := some attributes } =
          Except.ok jws →
      encrypter { token_type := some "JWT", content_type := some "JWT",
                  content_encryption := some "A128CBC-HS256" } { njwt := some jws } =
          Except.error e →
      sign_and_encrypt_attributes attributes signer encrypter =
        Except.error (JweModuleError.JWT e)) ∧
    (∀ jws token, signer { token_type := some "JWT" }
        { subject := some "id-contact-attributes", attributes := some attributes } =
          Except.ok jws →
      encrypter { token_type := some "JWT", content_type := some "JWT",
                  content_encryption := some "A128CBC-HS256" } { njwt := some jws } =
          Except.ok token →
      sign_and_encrypt_attributes attributes signer encrypter = Except.ok token) := by
  refine ⟨?_, ?_, ?_⟩
  · intro e hs
    simp [sign_and_encrypt_attributes, hs]
  · intro jws e hs he
    simp [sign_and_encrypt_attributes, hs, he]
  · intro jws token hs he
    simp [sign_and_encrypt_attributes, hs, he]

/-- Witness for C8: with a signer and encrypter that return inspectable
tokens, the packager output is the encrypter's output over the signer's
output. -/
theorem claim_C8_witness :
    sign_and_encrypt_attributes [([120], [118])]
      (fun _ _ => Except.ok "signed")
      (fun _ p => Except.ok ((p.njwt.getD "") ++ "/encrypted")) =
      Except.ok "signed/encrypted" :=
  (claim_C8_sign_then_encrypt [([120], [118])]
      (fun _ _ => Except.ok "signed")
      (fun _ p => Except.ok ((p.njwt.getD "") ++ "/encrypted"))).2.2
    "signed" "signed/encrypted" rfl rfl

/-- **C9**: in the out-of-band flow the delivery POST cannot influence the
handler's outcome: `session_complete` returns the same result for any two
POST capabilities, and whenever the sealed result was built it returns
success even though the POST may have failed. -/
theorem claim_C9_post_failure_swallowed (cfg : AttributeMapping) (token : Str)
    (attributesSeg attrUrlSeg : List Nat) (raw : RawIrmaResult DisclosedAttribute)
    (se : AuthResult → Except Unit Str)
    (post post' : Str → Str → Except Unit Unit) :
    (session_complete cfg token attributesSeg attrUrlSeg raw se post =
      session_complete cfg token attributesSeg attrUrlSeg raw se post') ∧
    (∀ attr_url attributes ires attrs sealed,
      decodeUrlSegment attrUrlSeg = some attr_url →
      decodeAttributesSegment attributesSeg = some attributes →
      tryFromRaw raw = Except.ok ires →
      map_response cfg attributes { disclosed := ires.disclosed } = Except.ok attrs →
      se { status := AuthStatus.Succes, attributes := some attrs, session_url := none } =
        Except.ok sealed →
      session_complete cfg token attributesSeg attrUrlSeg raw se post = Except.ok ()) := by
  constructor
  · rw [session_complete, session_complete]
    cases b64decode attrUrlSeg with
    | none => rfl
    | some urlBytes =>
      dsimp only
      cases fromUtf8 urlBytes with
      | none => rfl
      | some attr_url =>
        dsimp only
        cases b64decode attributesSeg with
        | none => rfl
        | some attrBytes =>
          dsimp only
          cases parseArray attrBytes with
          | none => rfl
          | some attributes =>
            dsimp only
            cases tryFromRaw raw with
            | error e => rfl
            | ok session_result =>
              dsimp only
              cases map_response cfg attributes { disclosed := session_result.disclosed } with
              | error e => rfl
              | ok attrs =>
                dsimp only
                cases se { status := AuthStatus.Succes, attributes := some attrs,
                           session_url := none } with
                | error e => rfl
                | ok auth_result =>
                  dsimp only
                  cases post attr_url auth_result <;> cases post' attr_url auth_result <;> rfl
  · intro attr_url attributes ires attrs sealed hurl hattr hraw hmap hse
    rw [session_complete]
    rw [decodeUrlSegment] at hurl
    rw [decodeAttributesSegment] at hattr
    cases hb : b64decode attrUrlSeg with
    | none => rw [hb] at hurl; exact absurd hurl (by simp)
    | some urlBytes =>
      rw [hb] at hurl
      dsimp only at hurl ⊢
      rw [hurl]
      dsimp only
      cases hb2 : b64decode attributesSeg with
      | none => rw [hb2] at hattr; exact absurd hattr (by simp)
      | some attrBytes =>
        rw [hb2] at hattr
        dsimp only at hattr ⊢
        rw [hattr]
        dsimp only
        rw [hraw]
        dsimp only
        rw [hmap]
        dsimp only
        rw [hse]
        dsimp only
        cases post attr_url sealed <;> rfl

/-- Witness for C9: with a POST capability that always fails, a successful
pipeline still completes with `Ok(())`, and swapping in a succeeding POST
leaves the outcome unchanged. -/
theorem claim_C9_witness :
    (session_complete [([120], [[105]])] [116]
        (encodeAttributesSegment [[120]]) (encodeUrlSegment [104])
        { status := SessionStatus.Done, proof_status := ProofStatus.Valid,
          disclosed := [[{ identifier := [105], raw_value := some [118] }]] }
        (fun _ => Except.ok [115])
        (fun _ _ => Except.error ()) =
      session_complete [([120], [[105]])] [116]
        (encodeAttributesSegment [[120]]) (encodeUrlSegment [104])
        { status := SessionStatus.Done, proof_status := ProofStatus.Valid,
          disclosed := [[{ identifier := [105], raw_value := some [118] }]] }
        (fun _ => Except.ok [115])
        (fun _ _ => Except.ok ())) ∧
    session_complete [([120], [[105]])] [116]
        (encodeAttributesSegment [[120]]) (encodeUrlSegment [104])
        { status := SessionStatus.Done, proof_status := ProofStatus.Valid,
          disclosed := [[{ identifier := [105], raw_value := some [118] }]] }
        (fun _ => Except.ok [115])
        (fun _ _ => Except.error ()) = Except.ok () :=
  ⟨(claim_C9_post_failure_swallowed [([120], [[105]])] [116]
      (encodeAttributesSegment [[120]]) (encodeUrlSegment [104])
      { status := SessionStatus.Done, proof_status := ProofStatus.Valid,
        disclosed := [[{ identifier := [105], raw_value := some [118] }]] }
      (fun _ => Except.ok [115]) (fun _ _ => Except.error ()) (fun _ _ => Except.ok ())).1,
   (claim_C9_post_failure_swallowed [([120], [[105]])] [116]
      (encodeAttributesSegment [[120]]) (encodeUrlSegment [104])
      { status := SessionStatus.Done, proof_status := ProofStatus.Valid,
        disclosed := [[{ identifier := [105], raw_value := some [118] }]] }
      (fun _ => Except.ok [115]) (fun _ _ => Except.error ()) (fun _ _ => Except.ok ())).2
    [104] [[120]] { disclosed := [[{ identifier := [105], raw_value := some [118] }]] }
    [([120], [118])] [115] (by rfl) (by rfl) (by rfl) (by rfl) (by rfl)⟩

/-- Counterexample for C3 as frozen: a session whose raw result has status
`CANCELLED` does *not* produce a sealed failed result.  Even with a sealer
that always succeeds, `decorated_continue` propagates the classification
error out of the handler (an ordinary HTTP error response through the
`Responder` impl), and no sealed result of any kind is built. -/
theorem claim_C3_counterexample :
    decorated_continue [([120], [[105]])] [116]
        (encodeAttributesSegment [[120]]) (encodeUrlSegment [104])
        { status := SessionStatus.Cancelled, proof_status := ProofStatus.Valid,
          disclosed := [] }
        (fun _ => Except.ok [115]) =
      Except.error (MainError.Irma IrmaError.Cancelled) := by rfl

/-- **C3** (amended): every protocol/validation failure of the session
classification propagates out of `decorated_continue` as the handler's
error value — an ordinary HTTP error — rather than being sealed and
attached to the continuation redirect; sealing happens only on the
success path. -/
theorem claim_C3_error_not_sealed (cfg : AttributeMapping) (token : Str)
    (attributesSeg continuationSeg : List Nat) (raw : RawIrmaResult DisclosedAttribute)
    (se : AuthResult → Except Unit Str) (e : IrmaError)
    (hc : ∃ cont, decodeUrlSegment continuationSeg = some cont)
    (ha : ∃ attrs, decodeAttributesSegment attributesSeg = some attrs)
    (he : tryFromRaw raw = Except.error e) :
    decorated_continue cfg token attributesSeg continuationSeg raw se =
      Except.error (MainError.Irma e) := by
  obtain ⟨cont, hcont⟩ := hc
  obtain ⟨attrs, hattrs⟩ := ha
  rw [decorated_continue]
  rw [decodeUrlSegment] at hcont
  rw [decodeAttributesSegment] at hattrs
  cases hb : b64decode continuationSeg with
  | none => rw [hb] at hcont; exact absurd hcont (by simp)
  | some contBytes =>
    rw [hb] at hcont
    dsimp only at hcont ⊢
    rw [hcont]
    dsimp only
    cases hb2 : b64decode attributesSeg with
    | none => rw [hb2] at hattrs; exact absurd hattrs (by simp)
    | some attrBytes =>
      rw [hb2] at hattrs
      dsimp only at hattrs ⊢
      rw [hattrs]
      dsimp only
      rw [he]

/-- Witness for the amended C3: a timed-out session propagates
`Err(Irma(Timeout))` out of the handler. -/
theorem claim_C3_witness :
    decorated_continue [([120], [[105]])] [116]
        (encodeAttributesSegment [[120]]) (encodeUrlSegment [104])
        { status := SessionStatus.Timeout, proof_status := ProofStatus.Valid,
          disclosed := [] }
        (fun _ => Except.ok [115]) =
      Except.error (MainError.Irma IrmaError.Timeout) :=
  claim_C3_error_not_sealed [([120], [[105]])] [116]
    (encodeAttributesSegment [[120]]) (encodeUrlSegment [104])
    { status := SessionStatus.Timeout, proof_status := ProofStatus.Valid, disclosed := [] }
    (fun _ => Except.ok [115]) IrmaError.Timeout
    ⟨[104], by rfl⟩ ⟨[[120]], by rfl⟩ rfl

/-- Decoding a base64 alphabet character recovers the sextet. -/
theorem b64dchar_b64char : ∀ n : Nat, n < 64 → b64dchar (b64char n) = some n := by
  decide

/-- No base64 alphabet character is the padding character `=`. -/
theorem b64char_ne_pad : ∀ n : Nat, n < 64 → b64char n ≠ 61 := by
  decide

/-- URL-safe base64 decoding inverts encoding on byte sequences. -/
theorem b64_roundtrip : ∀ bs : List Nat, (∀ b ∈ bs, b < 256) →
    b64decode (b64encode bs) = some bs := by
  intro bs
  induction bs using b64encode.induct with
  | case1 => intro _; rfl
  | case2 a =>
    intro hb
    have ha : a < 256 := hb a (by simp)
    have h1 := b64dchar_b64char (a / 4) (by omega)
    have h2 := b64dchar_b64char (a % 4 * 16) (by omega)
    simp [b64encode, b64decode, h1, h2, Nat.mul_mod_left]
    omega
  | case3 a b =>
    intro hb
    have ha : a < 256 := hb a (by simp)
    have hb' : b < 256 := hb b (by simp)
    have h1 := b64dchar_b64char (a / 4) (by omega)
    have h2 := b64dchar_b64char (a % 4 * 16 + b / 16) (by omega)
    have h3 := b64dchar_b64char (b % 16 * 4) (by omega)
    have hne := b64char_ne_pad (b % 16 * 4) (by omega)
    simp [b64encode, b64decode, h1, h2, h3, hne, Nat.mul_mod_left]
    constructor <;> omega
  | case4 a b c rest ih =>
    intro hb
    have ha : a < 256 := hb a (by simp)
    have hb' : b < 256 := hb b (by simp)
    have hc : c < 256 := hb c (by simp)
    have h1 := b64dchar_b64char (a / 4) (by omega)
    have h2 := b64dchar_b64char (a % 4 * 16 + b / 16) (by omega)
    have h3 := b64dchar_b64char (b % 16 * 4 + c / 64) (by omega)
    have h4 := b64dchar_b64char (c % 64) (by omega)
    have hne3 := b64char_ne_pad (b % 16 * 4 + c / 64) (by omega)
    have hne4 := b64char_ne_pad (c % 64) (by omega)
    have hrest := ih (fun x hx => hb x (by simp [hx]))
    simp [b64encode, b64decode, h1, h2, h3, h4, hne3, hne4, hrest]
    refine ⟨?_, ?_, ?_⟩ <;> omega

/-- Parsing a hexadecimal digit recovers the value it encodes. -/
theorem parseHex_hexDigit : ∀ x : Nat, x < 16 → parseHex (hexDigit x) = some x := by
  decide

/-- UTF-8 encoding of an ASCII code point is the single byte. -/
theorem utf8Encode_ascii (b : Nat) (h : b < 128) : utf8Encode b = [b] := by
  simp [utf8Encode, h]

/-- The escaped body of a string is never empty (it ends with the closing
quote). -/
theorem escBody_pos : ∀ s : Str, 0 < (escBody s).length := by
  intro s
  induction s with
  | nil => simp [escBody]
  | cons b t ih => simp [escBody]; omega

/-- Opening-quote evaluation of the string-body parser. -/
theorem psb_quote (fuel : Nat) (r : List Nat) :
    parseStringBody (fuel + 1) (34 :: r) = some ([], r) := rfl

/-- Evaluation of the parser on a single-character escape. -/
theorem psb_esc_step (fuel : Nat) (c u : Nat) (hcu : escChar c = some u)
    (hc : ¬ c = 117) (r : List Nat) :
    parseStringBody (fuel + 1) (92 :: c :: r) =
      (parseStringBody fuel r).map fun p => (u :: p.1, p.2) := by
  rw [parseStringBody]
  rw [if_neg (show ¬(92 : Nat) = 34 by decide), if_pos (show (92 : Nat) = 92 from rfl)]
  rw [parseEscape.eq_def]
  dsimp only
  rw [if_neg hc, hcu]
  rfl

/-- Evaluation of the parser on a raw (unescaped) byte. -/
theorem psb_raw (fuel : Nat) (b : Nat) (r : List Nat) (h34 : ¬ b = 34) (h92 : ¬ b = 92)
    (hlt : ¬ b < 32) :
    parseStringBody (fuel + 1) (b :: r) =
      (parseStringBody fuel r).map fun p => (b :: p.1, p.2) := by
  rw [parseStringBody]
  rw [if_neg h34, if_neg h92, if_neg hlt]

/-- Decoding a `\u00XX` control escape recovers the control byte and
consumes five bytes. -/
theorem parseEscape_u00 (b : Nat) (hb : b < 32) (l : List Nat) :
    parseEscape (117 :: 48 :: 48 :: hexDigit (b / 16) :: hexDigit (b % 16) :: l) =
      some ([b], 5) := by
  have e1 : parseHex (hexDigit (b / 16)) = some (b / 16) := parseHex_hexDigit _ (by omega)
  have e2 : parseHex (hexDigit (b % 16)) = some (b % 16) := parseHex_hexDigit _ (by omega)
  rw [parseEscape.eq_def]
  dsimp only
  rw [if_pos (show (117 : Nat) = 117 from rfl)]
  rw [show parseHex 48 = some 0 from rfl, e1, e2]
  dsimp only
  rw [if_pos (Or.inl (show 0 * 4096 + 0 * 256 + b / 16 * 16 + b % 16 < 55296 by omega))]
  have h4 : 0 * 4096 + 0 * 256 + b / 16 * 16 + b % 16 = b := by omega
  rw [h4, utf8Encode_ascii b (by omega)]

/-- Parsing a `\u00XX` control escape inside a string body recovers the
control byte. -/
theorem parseStringBody_u00 (fuel : Nat) (b : Nat) (hb : b < 32) (l : List Nat) :
    parseStringBody (fuel + 1)
        (92 :: 117 :: 48 :: 48 :: hexDigit (b / 16) :: hexDigit (b % 16) :: l) =
      (parseStringBody fuel l).map fun p => (b :: p.1, p.2) := by
  rw [parseStringBody]
  rw [if_neg (show ¬(92 : Nat) = 34 by decide), if_pos (show (92 : Nat) = 92 from rfl)]
  rw [parseEscape_u00 b hb l]
  rfl

/-- Parsing the escaped body of a JSON string recovers the original bytes
and leaves the remaining input intact, for any sufficient fuel. -/
theorem parseStringBody_escBody : ∀ (s : Str) (fuel : Nat) (rest : List Nat),
    (escBody s).length ≤ fuel →
    parseStringBody fuel (escBody s ++ rest) = some (s, rest) := by
  intro s
  induction s with
  | nil =>
    intro fuel rest h
    cases fuel with
    | zero => exact absurd h (by simp [escBody])
    | succ f => exact psb_quote f rest
  | cons b t ih =>
    intro fuel rest h
    cases fuel with
    | zero =>
      exact absurd (Nat.lt_of_lt_of_le (escBody_pos (b :: t)) h) (by omega)
    | succ f =>
      by_cases h34 : b = 34
      · subst h34
        have he : escBody (34 :: t) = 92 :: 34 :: escBody t := rfl
        have h' : (escBody t).length ≤ f := by rw [he] at h; simp at h; omega
        rw [show escBody (34 :: t) ++ rest = 92 :: 34 :: (escBody t ++ rest) from rfl,
          psb_esc_step f 34 34 rfl (by decide), ih f rest h']
        rfl
      · by_cases h92 : b = 92
        · subst h92
          have he : escBody (92 :: t) = 92 :: 92 :: escBody t := rfl
          have h' : (escBody t).length ≤ f := by rw [he] at h; simp at h; omega
          rw [show escBody (92 :: t) ++ rest = 92 :: 92 :: (escBody t ++ rest) from rfl,
            psb_esc_step f 92 92 rfl (by decide), ih f rest h']
          rfl
        · by_cases h8 : b = 8
          · subst h8
            have he : escBody (8 :: t) = 92 :: 98 :: escBody t := rfl
            have h' : (escBody t).length ≤ f := by rw [he] at h; simp at h; omega
            rw [show escBody (8 :: t) ++ rest = 92 :: 98 :: (escBody t ++ rest) from rfl,
              psb_esc_step f 98 8 rfl (by decide), ih f rest h']
            rfl
          · by_cases h9 : b = 9
            · subst h9
              have he : escBody (9 :: t) = 92 :: 116 :: escBody t := rfl
              have h' : (escBody t).length ≤ f := by rw [he] at h; simp at h; omega
              rw [show escBody (9 :: t) ++ rest = 92 :: 116 :: (escBody t ++ rest) from rfl,
                psb_esc_step f 116 9 rfl (by decide), ih f rest h']
              rfl
            · by_cases h10 : b = 10
              · subst h10
                have he : escBody (10 :: t) = 92 :: 110 :: escBody t := rfl
                have h' : (escBody t).length ≤ f := by rw [he] at h; simp at h; omega
                rw [show escBody (10 :: t) ++ rest = 92 :: 110 :: (escBody t ++ rest) from rfl,
                  psb_esc_step f 110 10 rfl (by decide), ih f rest h']
                rfl
              · by_cases h12 : b = 12
                · subst h12
                  have he : escBody (12 :: t) = 92 :: 102 :: escBody t := rfl
                  have h' : (escBody t).length ≤ f := by rw [he] at h; simp at h; omega
                  rw [show escBody (12 :: t) ++ rest = 92 :: 102 :: (escBody t ++ rest) from rfl,
                    psb_esc_step f 102 12 rfl (by decide), ih f rest h']
                  rfl
                · by_cases h13 : b = 13
                  · subst h13
                    have he : escBody (13 :: t) = 92 :: 114 :: escBody t := rfl
                    have h' : (escBody t).length ≤ f := by rw [he] at h; simp at h; omega
                    rw [show escBody (13 :: t) ++ rest = 92 :: 114 :: (escBody t ++ rest) from rfl,
                      psb_esc_step f 114 13 rfl (by decide), ih f rest h']
                    rfl
                  · have hesc : escapeByte b =
                        if b < 32 then
                          [92, 117, 48, 48, hexDigit (b / 16), hexDigit (b % 16)]
                        else [b] := by
                      rw [escapeByte.eq_def]
                      rw [if_neg h34, if_neg h92, if_neg h8, if_neg h9, if_neg h10,
                        if_neg h12, if_neg h13]
                    have hstep : escBody (b :: t) ++ rest =
                        escapeByte b ++ (escBody t ++ rest) := by
                      rw [escBody]; simp
                    have hlen : (escBody (b :: t)).length =
                        (escapeByte b).length + (escBody t).length := by
                      rw [escBody]; simp
                    by_cases hlt : b < 32
                    · have h' : (escBody t).length ≤ f := by
                        rw [hesc, if_pos hlt] at hlen
                        simp at hlen
                        omega
                      rw [hstep, hesc, if_pos hlt]
                      rw [show ([92, 117, 48, 48, hexDigit (b / 16), hexDigit (b % 16)] :
                          List Nat) ++ (escBody t ++ rest) =
                        92 :: 117 :: 48 :: 48 :: hexDigit (b / 16) :: hexDigit (b % 16) ::
                          (escBody t ++ rest) from rfl]
                      rw [parseStringBody_u00 f b hlt, ih f rest h']
                      rfl
                    · have h' : (escBody t).length ≤ f := by
                        rw [hesc, if_neg hlt] at hlen
                        simp at hlen
                        omega
                      rw [hstep, hesc, if_neg hlt]
                      rw [show ([b] : List Nat) ++ (escBody t ++ rest) =
                        b :: (escBody t ++ rest) from rfl]
                      rw [psb_raw f b _ h34 h92 hlt, ih f rest h']
                      rfl

/-- A serialized array tail is at least as long as the number of elements
it carries. -/
theorem serializeTail_len : ∀ ss : List Str, ss.length ≤ (serializeTail ss).length := by
  intro ss
  induction ss with
  | nil => simp [serializeTail]
  | cons s t ih => simp [serializeTail, serializeString]; omega

/-- Parsing the serialized elements of a non-empty string array recovers
the elements exactly and consumes the whole input, for any sufficient
fuel. -/
theorem parseElems_serialize : ∀ (ss : List Str) (s : Str) (fuel : Nat),
    ss.length + 1 ≤ fuel →
    parseElems fuel (serializeString s ++ serializeTail ss) = some (s :: ss, []) := by
  intro ss
  induction ss with
  | nil =>
    intro s fuel hf
    cases fuel with
    | zero => omega
    | succ f =>
      rw [show serializeString s ++ serializeTail [] = 34 :: (escBody s ++ [93]) from rfl]
      rw [parseElems.eq_def]
      dsimp only
      have hps := parseStringBody_escBody s ((escBody s ++ [93]).length + 1) [93]
        (by simp; omega)
      rw [hps]
      dsimp only
      rw [show skipWs [93] = [93] from rfl]
  | cons s2 t ih =>
    intro s fuel hf
    cases fuel with
    | zero => omega
    | succ f =>
      have hf' : t.length + 1 ≤ f := by simp at hf; omega
      rw [show serializeString s ++ serializeTail (s2 :: t) =
        34 :: (escBody s ++ (44 :: (serializeString s2 ++ serializeTail t))) from rfl]
      rw [parseElems.eq_def]
      dsimp only
      have hps := parseStringBody_escBody s
        ((escBody s ++ (44 :: (serializeString s2 ++ serializeTail t))).length + 1)
        (44 :: (serializeString s2 ++ serializeTail t)) (by simp; omega)
      rw [hps]
      dsimp only
      rw [show skipWs (44 :: (serializeString s2 ++ serializeTail t)) =
        44 :: (serializeString s2 ++ serializeTail t) from rfl]
      dsimp only
      rw [show skipWs (serializeString s2 ++ serializeTail t) =
        serializeString s2 ++ serializeTail t from rfl]
      rw [ih s2 f hf']

/-- Parsing a serialized string array recovers the array exactly. -/
theorem parseArray_serialize : ∀ l : List Str, parseArray (serializeStrList l) = some l := by
  intro l
  cases l with
  | nil => rfl
  | cons s ss =>
    rw [parseArray.eq_def]
    rw [show skipWs (serializeStrList (s :: ss)) =
      91 :: (serializeString s ++ serializeTail ss) from rfl]
    dsimp only
    rw [show skipWs (serializeString s ++ serializeTail ss) =
      34 :: (escBody s ++ serializeTail ss) from rfl]
    have hlen : ss.length + 1 ≤ (34 :: (escBody s ++ serializeTail ss)).length + 1 := by
      have := serializeTail_len ss
      simp
      omega
    have hp := parseElems_serialize ss s ((34 :: (escBody s ++ serializeTail ss)).length + 1) hlen
    rw [show serializeString s ++ serializeTail ss =
      34 :: (escBody s ++ serializeTail ss) from rfl] at hp
    dsimp only
    rw [hp]
    rfl

/-- Escaping a byte below 256 yields only bytes below 256. -/
theorem escapeByte_lt (b : Nat) (hb : b < 256) : ∀ x ∈ escapeByte b, x < 256 := by
  have hd1 : hexDigit (b / 16) < 256 := by unfold hexDigit; split <;> omega
  have hd2 : hexDigit (b % 16) < 256 := by unfold hexDigit; split <;> omega
  intro x hx
  rw [escapeByte.eq_def] at hx
  split_ifs at hx <;> simp at hx <;> omega

/-- The escaped body of a bounded string is bounded. -/
theorem escBody_lt : ∀ s : Str, (∀ b ∈ s, b < 256) → ∀ x ∈ escBody s, x < 256 := by
  intro s
  induction s with
  | nil => intro _ x hx; simp [escBody] at hx; omega
  | cons b t ih =>
    intro hs x hx
    rw [escBody] at hx
    rcases List.mem_append.mp hx with h | h
    · exact escapeByte_lt b (hs b (by simp)) x h
    · exact ih (fun y hy => hs y (by simp [hy])) x h

/-- The serialized tail of a bounded string array is bounded. -/
theorem serializeTail_lt : ∀ ss : List Str, (∀ a ∈ ss, ∀ b ∈ a, b < 256) →
    ∀ x ∈ serializeTail ss, x < 256 := by
  intro ss
  induction ss with
  | nil => intro _ x hx; simp [serializeTail] at hx; omega
  | cons s t ih =>
    intro hs x hx
    rw [serializeTail] at hx
    rcases List.mem_cons.mp hx with rfl | h
    · omega
    · rcases List.mem_append.mp h with h2 | h2
      · rcases List.mem_cons.mp (by simpa [serializeString] using h2) with rfl | h3
        · omega
        · exact escBody_lt s (hs s (by simp)) x h3
      · exact ih (fun a ha => hs a (by simp [ha])) x h2

/-- A serialized string array over bounded strings is bounded. -/
theorem serializeStrList_lt : ∀ l : List Str, (∀ a ∈ l, ∀ b ∈ a, b < 256) →
    ∀ x ∈ serializeStrList l, x < 256 := by
  intro l hl x hx
  cases l with
  | nil => simp [serializeStrList] at hx; omega
  | cons s ss =>
    rw [serializeStrList] at hx
    rcases List.mem_cons.mp hx with rfl | h
    · omega
    · rcases List.mem_append.mp h with h2 | h2
      · rcases List.mem_cons.mp (by simpa [serializeString] using h2) with rfl | h3
        · omega
        · exact escBody_lt s (hl s (by simp)) x h3
      · exact serializeTail_lt ss (fun a ha => hl a (by simp [ha])) x h2

/-- **C7**: the continuation codec is lossless: a continuation URL and an
attribute-name list encoded by `start_ib` (JSON-serialize the list, then
URL-safe base64 each value) and decoded by `decorated_continue` (base64
decode, UTF-8 decode, JSON parse) come back exactly, for arbitrary strings
including those containing reserved URL characters. -/
theorem claim_C7_codec_roundtrip (continuation : Str) (attributes : List Str)
    (hcb : ∀ b ∈ continuation, b < 256) (hcv : validUtf8 continuation = true)
    (hab : ∀ a ∈ attributes, ∀ b ∈ a, b < 256) :
    decodeUrlSegment (encodeUrlSegment continuation) = some continuation ∧
    decodeAttributesSegment (encodeAttributesSegment attributes) = some attributes := by
  constructor
  · rw [decodeUrlSegment, encodeUrlSegment, b64_roundtrip continuation hcb]
    dsimp only
    rw [fromUtf8, if_pos hcv]
  · rw [decodeAttributesSegment, encodeAttributesSegment,
      b64_roundtrip _ (serializeStrList_lt attributes hab)]
    dsimp only
    exact parseArray_serialize attributes

/-- Witness for C7: a continuation URL with reserved characters
(`https://a/b?c=1&d=%20`) and a two-name attribute list (the second name
containing `"`, `\`, a newline and a non-ASCII byte) round-trip exactly. -/
theorem claim_C7_witness :
    decodeUrlSegment (encodeUrlSegment
      [104, 116, 116, 112, 115, 58, 47, 47, 97, 47, 98, 63, 99, 61, 49, 38, 100, 61, 37, 50, 48]) =
      some [104, 116, 116, 112, 115, 58, 47, 47, 97, 47, 98, 63, 99, 61, 49, 38, 100, 61, 37, 50, 48] ∧
    decodeAttributesSegment (encodeAttributesSegment [[101, 109, 97, 105, 108], [34, 92, 10, 195, 169]]) =
      some [[101, 109, 97, 105, 108], [34, 92, 10, 195, 169]] :=
  claim_C7_codec_roundtrip
    [104, 116, 116, 112, 115, 58, 47, 47, 97, 47, 98, 63, 99, 61, 49, 38, 100, 61, 37, 50, 48]
    [[101, 109, 97, 105, 108], [34, 92, 10, 195, 169]]
    (by decide) (by decide) (by decide)

end AuthIrma
